import Mathlib

/-!
Verification development for the dosing core of the diabetes-assistant bot
(Go sources: internal/services/{ai_service,food_analysis_service,user_service}.go,
the insulin service, the utils time helper and the bot photo handler).

Modelling conventions:
* Go `float64` values (carbs, weights, ratios) are modelled as `ℚ`; every
  float computation the claims mention is a composition of the same `/` and `*`
  operations on both sides, so rational arithmetic is faithful for them.
* Go `int` minute values are `Nat` (they are always non-negative; every
  subtraction in the source is guarded so that the minuend dominates).
* Database reads/writes are modelled by passing the stored period list in and
  out; the service functions return `Except` mirroring the Go error returns,
  and an `.error` result corresponds to returning before any DB mutation.
* External AI calls are modelled as explicit outcome parameters.
-/

set_option autoImplicit false
set_option maxRecDepth 8000

/-- Digit value of an ASCII digit character. -/
def digitVal (c : Char) : Nat := c.toNat - '0'.toNat

/-- Second half of Go `time.Parse("15:04", s)`: after the hour has been read,
the remaining characters must be a colon followed by exactly two digits
(`stdZeroMinute`), and then the input must be exhausted; finally Go checks
`hour < 24` and `minute < 60`. -/
def parseColonMM (h : Nat) : List Char → Option (Nat × Nat)
  | c :: m1 :: m2 :: [] =>
    if c = ':' && m1.isDigit && m2.isDigit then
      let m := 10 * digitVal m1 + digitVal m2
      if h < 24 && m < 60 then some (h, m) else none
    else none
  | _ => none

/-- Model of Go `time.Parse("15:04", s)` on the character list: the hour
(`stdHour`) is one or two ASCII digits (Go's `getnum` with `fixed = false`
consumes a second digit only when one is present), then `parseColonMM`
finishes the job.  `none` models a non-nil parse error. -/
def parseHHMMList : List Char → Option (Nat × Nat)
  | [] => none
  | [_] => none
  | c0 :: c1 :: rest2 =>
    if c0.isDigit then
      if c1.isDigit then parseColonMM (10 * digitVal c0 + digitVal c1) rest2
      else parseColonMM (digitVal c0) (c1 :: rest2)
    else none

/-- Model of Go `time.Parse("15:04", s)` restricted to the data the repository
uses. -/
def parseHHMM (s : String) : Option (Nat × Nat) :=
  parseHHMMList s.data

/-- `utils.TimeToMinutes` (part_002): `t, _ := time.Parse("15:04", timeStr);
return t.Hour()*60 + t.Minute()`.  On a parse error Go leaves `t` as the zero
`time.Time`, whose hour and minute are both `0`. -/
def TimeToMinutes (timeStr : String) : Nat :=
  let t := (parseHHMM timeStr).getD (0, 0)
  t.1 * 60 + t.2

/-- `timeToMinutes` (insulin service, part_003): byte-for-byte the same helper
as `utils.TimeToMinutes`, redeclared in the services package. -/
def timeToMinutes (timeStr : String) : Nat :=
  let t := (parseHHMM timeStr).getD (0, 0)
  t.1 * 60 + t.2

example : parseHHMM "08:00" = some (8, 0) := by decide
example : parseHHMM "8:00" = some (8, 0) := by decide
example : parseHHMM "24:00" = none := by decide
example : parseHHMM "23:59" = some (23, 59) := by decide
example : parseHHMM "12:60" = none := by decide
example : parseHHMM "" = none := by decide
example : parseHHMM "1200" = none := by decide
example : parseHHMM "12:0" = none := by decide
example : parseHHMM "123:45" = none := by decide
example : parseHHMM "ab:cd" = none := by decide
example : parseHHMM "12:000" = none := by decide
example : TimeToMinutes "22:00" = 1320 := by decide
example : TimeToMinutes "24:00" = 0 := by decide

/-- A successful parse of the minute part yields an in-range clock time. -/
theorem parseColonMM_range {h hr mn : Nat} {cs : List Char}
    (hp : parseColonMM h cs = some (hr, mn)) : hr < 24 ∧ mn < 60 := by
  rcases cs with _ | ⟨c, _ | ⟨m1, _ | ⟨m2, _ | ⟨x, tl⟩⟩⟩⟩
  · simp [parseColonMM] at hp
  · simp [parseColonMM] at hp
  · simp [parseColonMM] at hp
  · simp only [parseColonMM] at hp
    split at hp
    · split at hp
      · rename_i hrange
        simp only [Bool.and_eq_true, decide_eq_true_eq] at hrange
        simp only [Option.some.injEq, Prod.mk.injEq] at hp
        omega
      · simp at hp
    · simp at hp
  · simp [parseColonMM] at hp

/-- A successful `time.Parse("15:04", s)` yields an in-range clock time. -/
theorem parseHHMMList_range {cs : List Char} {hr mn : Nat}
    (hp : parseHHMMList cs = some (hr, mn)) : hr < 24 ∧ mn < 60 := by
  rcases cs with _ | ⟨c0, _ | ⟨c1, rest2⟩⟩
  · simp [parseHHMMList] at hp
  · simp [parseHHMMList] at hp
  · simp only [parseHHMMList] at hp
    split at hp
    · split at hp
      · exact parseColonMM_range hp
      · exact parseColonMM_range hp
    · simp at hp

/-- A successful `time.Parse("15:04", s)` yields an in-range clock time. -/
theorem parseHHMM_range {s : String} {hr mn : Nat}
    (hp : parseHHMM s = some (hr, mn)) : hr < 24 ∧ mn < 60 :=
  parseHHMMList_range hp

/-! ## Insulin ratio periods (insulin service, src/unnamed/part_003) -/

/-- One `database.InsulinRatio` row, scoped to a single user: the `AddRatio`
and `UpdateRatio` queries already filter on `user_id`, so the functions below
take the user's row list directly.  Times are the stored `HH:MM` strings. -/
structure InsulinRatio where
  StartTime : String
  EndTime : String
  Ratio : ℚ
deriving DecidableEq

/-- The raw-minute overlap test from `AddRatio` (part_003 lines 182-184):
`(startMinutes >= existingStart && startMinutes < existingEnd) ||
 (endMinutes > existingStart && endMinutes <= existingEnd) ||
 (startMinutes <= existingStart && endMinutes >= existingEnd)`. -/
def overlapsRaw (startMinutes endMinutes existingStart existingEnd : Nat) : Bool :=
  (decide (startMinutes ≥ existingStart) && decide (startMinutes < existingEnd)) ||
  (decide (endMinutes > existingStart) && decide (endMinutes ≤ existingEnd)) ||
  (decide (startMinutes ≤ existingStart) && decide (endMinutes ≥ existingEnd))

/-- Wraparound-normalized duration of one stored period, as computed inside
both `AddRatio` and `UpdateRatio`: add `24*60` to the end when the period
crosses midnight, then subtract the start. -/
def normalizedDuration (r : InsulinRatio) : Nat :=
  let existingStart := timeToMinutes r.StartTime
  let existingEnd := timeToMinutes r.EndTime
  (if existingEnd < existingStart then existingEnd + 24 * 60 else existingEnd) - existingStart

/-- Total covered minutes of a user's stored periods, each period
wraparound-normalized (the quantity `AddRatio`/`UpdateRatio` accumulate in
`totalMinutes`). -/
def totalCoveredMinutes (ratios : List InsulinRatio) : Nat :=
  (ratios.map normalizedDuration).sum

deriving instance DecidableEq for Except

/-- The distinct error returns of `AddRatio` / `UpdateRatio`. -/
inductive RatioError where
  | invalidStartTime
  | invalidEndTime
  | overlap
  | coverageExceeded
deriving DecidableEq

/-- `InsulinService.AddRatio` (part_003 lines 157-222).  The Go function
validates both times with `time.Parse("15:04", ·)`, loads the user's existing
rows, rejects when the raw-minute overlap test fires against any existing row,
accumulates the wraparound-normalized total coverage (existing rows plus the
new period), rejects when it exceeds `24*60`, and otherwise inserts the row.
`.error` corresponds to returning before the DB `Create`, so the stored rows
are unchanged in that case; `.ok` carries the resulting row list. -/
def AddRatio (existing : List InsulinRatio) (startTime endTime : String) (ratio : ℚ) :
    Except RatioError (List InsulinRatio) :=
  if (parseHHMM startTime).isNone then .error .invalidStartTime
  else if (parseHHMM endTime).isNone then .error .invalidEndTime
  else
    let startMinutes := timeToMinutes startTime
    let endMinutes := timeToMinutes endTime
    if existing.any (fun r =>
        overlapsRaw startMinutes endMinutes (timeToMinutes r.StartTime) (timeToMinutes r.EndTime))
    then .error .overlap
    else
      let endMinutes := if endMinutes < startMinutes then endMinutes + 24 * 60 else endMinutes
      let totalMinutes := totalCoveredMinutes existing + (endMinutes - startMinutes)
      if totalMinutes > 24 * 60 then .error .coverageExceeded
      else .ok (existing ++ [⟨startTime, endTime, ratio⟩])

/-- `InsulinService.UpdateRatio` (part_003 lines 249-327).  `others` is the
result of the Go query `user_id = ? AND id != ?`: every row of the user except
the one being edited.  Unlike `AddRatio`, the overlap loop here first
normalizes the new period's end and each existing period's end by adding
`24*60` when it is smaller than the corresponding start.  On success the
edited row's fields are replaced, so the resulting row set is
`others ++ [new]`. -/
def UpdateRatio (others : List InsulinRatio) (startTime endTime : String) (ratio : ℚ) :
    Except RatioError (List InsulinRatio) :=
  if (parseHHMM startTime).isNone then .error .invalidStartTime
  else if (parseHHMM endTime).isNone then .error .invalidEndTime
  else
    let startMinutes := timeToMinutes startTime
    let endMinutes :=
      let e := timeToMinutes endTime
      if e < startMinutes then e + 24 * 60 else e
    if others.any (fun r =>
        let existingStart := timeToMinutes r.StartTime
        let existingEnd :=
          let e := timeToMinutes r.EndTime
          if e < existingStart then e + 24 * 60 else e
        overlapsRaw startMinutes endMinutes existingStart existingEnd)
    then .error .overlap
    else
      let totalMinutes := totalCoveredMinutes others + (endMinutes - startMinutes)
      if totalMinutes > 24 * 60 then .error .coverageExceeded
      else .ok (others ++ [⟨startTime, endTime, ratio⟩])

example :
    AddRatio [] "08:00" "12:00" (3/2) = .ok [⟨"08:00", "12:00", 3/2⟩] := rfl
example :
    AddRatio [⟨"08:00", "12:00", 3/2⟩] "10:00" "11:00" 1 = .error .overlap := rfl
example :
    AddRatio [⟨"08:00", "12:00", 3/2⟩] "25:00" "13:00" 1 = .error .invalidStartTime := rfl
example :
    AddRatio [⟨"08:00", "12:00", 1⟩, ⟨"12:00", "20:00", 1⟩] "20:00" "08:00" 1 = .ok
      [⟨"08:00", "12:00", 1⟩, ⟨"12:00", "20:00", 1⟩, ⟨"20:00", "08:00", 1⟩] := rfl
example :
    AddRatio [⟨"20:00", "08:00", 1⟩] "12:00" "20:00" 1 = .error .overlap := rfl
example :
    AddRatio [⟨"12:00", "11:00", 1⟩] "12:30" "23:30" 1 = .error .coverageExceeded := rfl

/-- Modelled from the spec's words, for comparison against the code (claim C1):
a wraparound-normalized period covers minute `m` of the day when `s ≤ m < e`
for a non-wrapping period, and when `m ∈ [s,1440) ∪ [0,e)` for a wrapping
period (`e < s`). -/
def specCoversMinute (s e m : Nat) : Bool :=
  if e < s then decide (s ≤ m) || decide (m < e)
  else decide (s ≤ m) && decide (m < e)

/-- Modelled from the spec's words, for comparison against the code (claim C1):
two periods' wraparound-normalized minute ranges share a non-empty set of
minutes of the day. -/
def specNormalizedIntersect (s1 e1 s2 e2 : Nat) : Bool :=
  (List.range (24 * 60)).any fun m => specCoversMinute s1 e1 m && specCoversMinute s2 e2 m

/-! ## Food analysis service (src/internal/services/food_analysis_service.go) -/

/-- `FoodAnalysisResult` (ai_service.go): the JSON payload decoded from the
provider response. -/
structure FoodAnalysisResult where
  FoodItems : List String
  Carbs : ℚ
  Confidence : String
  AnalysisText : String
  Weight : ℚ
deriving DecidableEq

/-- `database.FoodAnalysis`: the record `AnalyzeFood` builds and persists
(identity and image-reference fields omitted; they are copied verbatim). -/
structure FoodAnalysis where
  Weight : ℚ
  Carbs : ℚ
  BreadUnits : ℚ
  Confidence : ℚ
  AnalysisText : String
  InsulinRatio : ℚ
  InsulinUnits : ℚ
deriving DecidableEq

/-- Go `strings.ToLower` restricted to the data the claims exercise: it maps
every character to its lower-case form (for the ASCII confidence labels this
is the `A`-`Z` shift Go performs). -/
def toLowerGo (s : String) : String :=
  String.mk (s.data.map Char.toLower)

/-- The confidence-string conversion switch of
`FoodAnalysisService.AnalyzeFood` (food_analysis_service.go lines 43-54):
`switch strings.ToLower(result.Confidence)` with cases `high`/`medium`/`low`
and a default of `0.5`. -/
def confidenceFromString (c : String) : ℚ :=
  if toLowerGo c == "high" then 9/10
  else if toLowerGo c == "medium" then 6/10
  else if toLowerGo c == "low" then 3/10
  else 5/10

/-- The per-period containment test of the ratio-lookup loop
(food_analysis_service.go lines 72-90): wrapping periods
(`endMinutes < startMinutes`) match when
`currentMinutes >= startMinutes || currentMinutes <= endMinutes`,
others when `currentMinutes >= startMinutes && currentMinutes <= endMinutes`.
Both comparisons are inclusive of the end minute. -/
def coversMinute (r : InsulinRatio) (currentMinutes : Nat) : Bool :=
  let startMinutes := TimeToMinutes r.StartTime
  let endMinutes := TimeToMinutes r.EndTime
  if endMinutes < startMinutes then
    decide (currentMinutes ≥ startMinutes) || decide (currentMinutes ≤ endMinutes)
  else
    decide (currentMinutes ≥ startMinutes) && decide (currentMinutes ≤ endMinutes)

/-- The ratio-lookup loop (food_analysis_service.go lines 69-90):
`insulinRatio` starts at `0`, the loop takes the first period containing the
current minute and breaks; if none matches it stays `0`. -/
def findInsulinRatio : List InsulinRatio → Nat → ℚ
  | [], _ => 0
  | r :: rest, m => if coversMinute r m then r.Ratio else findInsulinRatio rest m

/-- `FoodAnalysisService.AnalyzeFood` (food_analysis_service.go lines 32-113),
its pure computation: the AI call's successful result and the user's stored
ratio rows are passed in (on an AI or DB error Go returns before computing
anything), and `currentMinutes` stands for `now.Hour()*60 + now.Minute()`.
The weight is replaced by the AI estimate when none was provided, the
confidence string becomes a score, bread units are `carbs / 12.0`, and the
dose is `breadUnits * insulinRatio` with the ratio found by
`findInsulinRatio`. -/
def AnalyzeFood (result : FoodAnalysisResult) (weight : ℚ) (ratios : List InsulinRatio)
    (currentMinutes : Nat) : FoodAnalysis :=
  let weight := if weight ≤ 0 ∧ result.Weight > 0 then result.Weight else weight
  let confidence := confidenceFromString result.Confidence
  let breadUnits := result.Carbs / 12
  let insulinRatio := findInsulinRatio ratios currentMinutes
  let insulinUnits := breadUnits * insulinRatio
  { Weight := weight
    Carbs := result.Carbs
    BreadUnits := breadUnits
    Confidence := confidence
    AnalysisText := result.AnalysisText
    InsulinRatio := insulinRatio
    InsulinUnits := insulinUnits }

/-- `Bot.handlePhoto` (part_005 lines 1099-1108): the caption shows a dose
recommendation only when `analysis.InsulinRatio > 0`; otherwise it shows the
ratio-not-configured message.  This flag is true exactly in the second case. -/
def ratioNotConfiguredFlag (analysis : FoodAnalysis) : Bool :=
  ! decide (analysis.InsulinRatio > 0)

/-- `Bot.handlePhoto` (part_005 lines 1088-1097): the confidence bucket shown
to the user; `высокая`/`средняя`/`низкая` are the high/medium/low buckets. -/
def confidenceText (confidence : ℚ) : String :=
  if confidence ≥ 8/10 then "высокая"
  else if confidence ≥ 6/10 then "средняя"
  else "низкая"

example : findInsulinRatio [⟨"20:00", "08:00", 1⟩] 360 = 1 := rfl
example : findInsulinRatio [⟨"08:00", "12:00", 2⟩] 720 = 2 := rfl
example : findInsulinRatio [⟨"08:00", "12:00", 2⟩] 721 = 0 := rfl
example : confidenceText (confidenceFromString "HIGH") = "высокая" := by
  norm_num [show confidenceFromString "HIGH" = 9/10 from rfl, confidenceText]
example : confidenceText (confidenceFromString "unsure") = "низкая" := by
  norm_num [show confidenceFromString "unsure" = 5/10 from rfl, confidenceText]

/-! ## Retry wrappers (ai_service.go lines 78-116 and user_service.go lines 420-461) -/

/-- The error classes distinguished by the retry wrappers: a `googleapi.Error`
with its HTTP status code, or any other Go error. -/
inductive ProviderError where
  | googleAPI (code : Nat)
  | generic (msg : String)
deriving DecidableEq

/-- The test of `retryWithBackoff` in ai_service.go (line 90): the error is a
`*googleapi.Error` and its code is exactly 429. -/
def isRateLimitError : ProviderError → Bool
  | .googleAPI code => code == 429
  | .generic _ => false

/-- The retried classes of `retryWithBackoff` in user_service.go (lines
427-455): a `*googleapi.Error` with code 429 or ≥ 500, and every
non-`googleapi` error. -/
def isRetryableUS : ProviderError → Bool
  | .googleAPI code => code == 429 || decide (code ≥ 500)
  | .generic _ => true

/-- Possible outcomes of the retry wrappers.  `failed` is an error returned
immediately from inside the loop; `maxRetriesExceeded` is ai_service.go's
final wrapped `fmt.Errorf("max retries exceeded: %w", lastErr)`; `exhausted`
is user_service.go's bare `return lastErr` after the loop. -/
inductive RetryResult where
  | ok
  | failed (e : ProviderError)
  | maxRetriesExceeded (e : ProviderError)
  | exhausted (e : ProviderError)
deriving DecidableEq

/-- Loop body of ai_service.go's `retryWithBackoff`.  `fn attempt` is the
outcome of invoking the operation on the given zero-based attempt (`none` is
success); `remaining = maxRetries - attempt`, so `remaining > 0` is Go's
`attempt < maxRetries`.  The second component counts invocations of `fn`.
Backoff sleeps and context cancellation are not modelled (the `ctx.Done`
branch never fires). -/
def retryLoop (fn : Nat → Option ProviderError) : Nat → Nat → RetryResult × Nat
  | attempt, remaining =>
    match fn attempt with
    | none => (.ok, 1)
    | some e =>
      if isRateLimitError e then
        match remaining with
        | 0 => (.maxRetriesExceeded e, 1)
        | r + 1 =>
          let next := retryLoop fn (attempt + 1) r
          (next.1, next.2 + 1)
      else (.failed e, 1)

/-- `retryWithBackoff` (ai_service.go lines 78-116): the loop runs
`attempt = 0 .. maxRetries`; success returns immediately; a non-429 error
returns immediately; a 429 error sleeps and retries while
`attempt < maxRetries`, and after the last attempt the loop exits and the
last error is returned wrapped. -/
def retryWithBackoff (maxRetries : Nat) (fn : Nat → Option ProviderError) : RetryResult × Nat :=
  retryLoop fn 0 maxRetries

/-- Loop body of user_service.go's `retryWithBackoff`; `remaining =
maxRetries - i`, so the loop guard `i < maxRetries` is `remaining > 0`, and
`lastErr` is carried to the final `return lastErr` (`nil` when the loop never
ran, which Go treats as success). -/
def retryLoopUS (fn : Nat → Option ProviderError) :
    Nat → Nat → Option ProviderError → RetryResult × Nat
  | _, 0, lastErr =>
    (match lastErr with
     | none => .ok
     | some e => .exhausted e, 0)
  | i, r + 1, _ =>
    match fn i with
    | none => (.ok, 1)
    | some e =>
      if isRetryableUS e then
        let next := retryLoopUS fn (i + 1) r (some e)
        (next.1, next.2 + 1)
      else (.failed e, 1)

/-- `retryWithBackoff` (user_service.go lines 420-461): the loop runs
`i = 0 .. maxRetries-1`; success returns immediately; a non-retryable
`googleapi` error returns immediately; every retryable error (429/5xx
`googleapi` errors and every non-`googleapi` error) sleeps and continues,
including on the final iteration, after which the bare last error is
returned. -/
def retryWithBackoffUS (maxRetries : Nat) (fn : Nat → Option ProviderError) : RetryResult × Nat :=
  retryLoopUS fn 0 maxRetries none

example : retryWithBackoff 3 (fun _ => none) = (.ok, 1) := rfl
example :
    retryWithBackoff 3 (fun i => if i < 2 then some (.googleAPI 429) else none) = (.ok, 3) := by
  decide
example :
    retryWithBackoff 3 (fun _ => some (.googleAPI 429)) =
      (.maxRetriesExceeded (.googleAPI 429), 4) := by decide
example :
    retryWithBackoff 3 (fun _ => some (.googleAPI 500)) = (.failed (.googleAPI 500), 1) := by
  decide
example :
    retryWithBackoffUS 3 (fun _ => some (.googleAPI 404)) = (.failed (.googleAPI 404), 1) := by
  decide
example :
    retryWithBackoffUS 3 (fun _ => some (.generic "x")) = (.exhausted (.generic "x"), 3) := by
  decide
example : retryWithBackoffUS 0 (fun _ => some (.generic "x")) = (.ok, 0) := by decide

/-! ## JSON extraction (ai_service.go lines 477-503, user_service.go lines 349-362) -/

/-- Go `strings.ReplaceAll(s, old, new)` on character lists, driven by a fuel
argument that starts at the list length: each step either copies one
character or, when `old` is a non-empty prefix of the remainder, emits `new`
and skips over the matched occurrence, so non-overlapping occurrences are
replaced left to right.  The fuel decreases by one per step while at least
one character is consumed, so starting fuel `s.length` is never exhausted. -/
def replaceAllFuel (pat rep : List Char) : Nat → List Char → List Char
  | _, [] => []
  | 0, s => s
  | fuel + 1, c :: rest =>
    if pat.isPrefixOf (c :: rest) && !pat.isEmpty then
      rep ++ replaceAllFuel pat rep fuel (List.drop (pat.length - 1) rest)
    else c :: replaceAllFuel pat rep fuel rest

/-- Go `strings.TrimSpace` on character lists (the repository's inputs only
use ASCII whitespace, where `Char.isWhitespace` and Go's `unicode.IsSpace`
agree). -/
def trimSpaceGo (cs : List Char) : List Char :=
  ((cs.dropWhile Char.isWhitespace).reverse.dropWhile Char.isWhitespace).reverse

/-- The `strings.Index(s, "{")` step of `extractJSON`: the suffix of the
string starting at the first `{`, or `none` when there is none. -/
def dropUntilOpen : List Char → Option (List Char)
  | [] => none
  | c :: rest => if c = '\x7b' then some (c :: rest) else dropUntilOpen rest

/-- The brace-depth scan of the current `extractJSON` (ai_service.go lines
490-500): starting from the first `{` with `braceCount = 0`, `{` increments,
`}` decrements and the substring up to the position where the count returns
to zero is returned; `none` models falling off the end (Go returns `""`).
`acc` is the reversed prefix consumed so far. -/
def extractLoop : List Char → Int → List Char → Option (List Char)
  | [], _, _ => none
  | c :: rest, braceCount, acc =>
    if c = '\x7b' then extractLoop rest (braceCount + 1) (c :: acc)
    else if c = '\x7d' then
      if braceCount - 1 = 0 then some (c :: acc).reverse
      else extractLoop rest (braceCount - 1) (c :: acc)
    else extractLoop rest braceCount (c :: acc)

/-- The boundary-finding half of the current `extractJSON` (ai_service.go
lines 483-502), applied to the cleaned character list: find the first `{`,
then scan brace depth to its matching `}`; `""` when no `{` exists or the
scan never closes. -/
def extractFromOpen (cs : List Char) : String :=
  match extractLoop cs 0 [] with
  | none => ""
  | some out => String.mk out

/-- The first-`{` search of the current `extractJSON`, feeding the depth
scan. -/
def extractFromCleaned (cleaned : List Char) : String :=
  match dropUntilOpen cleaned with
  | none => ""
  | some cs => extractFromOpen cs

/-- `extractJSON` (current revision, ai_service.go lines 477-503): strips
markdown code fences, trims whitespace, finds the first `{` and scans brace
depth to its matching `}`; returns `""` when no `{` exists or the scan never
closes. -/
def extractJSON (s : String) : String :=
  let cleaned := replaceAllFuel "```json".data "".data s.data.length s.data
  let cleaned := replaceAllFuel "```".data "".data cleaned.length cleaned
  extractFromCleaned (trimSpaceGo cleaned)

/-- Zero-based index of the first occurrence of `target`, modelling Go
`strings.Index` for a one-byte pattern. -/
def firstIndexOf (cs : List Char) (target : Char) : Option Nat :=
  match cs with
  | [] => none
  | c :: rest =>
    if c = target then some 0 else (firstIndexOf rest target).map (· + 1)

/-- Zero-based index of the last occurrence of `target`, modelling Go
`strings.LastIndex` for a one-byte pattern. -/
def lastIndexOf (cs : List Char) (target : Char) : Option Nat :=
  (firstIndexOf cs.reverse target).map (fun i => cs.length - 1 - i)

/-- `extractJSON` (older revision, user_service.go lines 349-362): the
substring from the first `{` to the last `}` (`""` when either is missing or
the last `}` does not come after the first `{`); no fence stripping, no
brace-depth tracking. -/
def extractJSONLegacy (s : String) : String :=
  match firstIndexOf s.data '\x7b' with
  | none => ""
  | some start =>
    match lastIndexOf s.data '\x7d' with
    | none => ""
    | some e =>
      if e ≤ start then "" else String.mk ((s.data.drop start).take (e - start + 1))

example : extractJSON "noise \x7b\"a\":1,\"nested\":\x7b\"b\":2\x7d\x7d trailing" =
    "\x7b\"a\":1,\"nested\":\x7b\"b\":2\x7d\x7d" := by decide
example : extractJSONLegacy "noise \x7b\"a\":1,\"nested\":\x7b\"b\":2\x7d\x7d trailing" =
    "\x7b\"a\":1,\"nested\":\x7b\"b\":2\x7d\x7d" := by decide
example : extractJSON "x \x7b\"a\":1\x7d tail\x7d" = "\x7b\"a\":1\x7d" := by decide
example : extractJSONLegacy "x \x7b\"a\":1\x7d tail\x7d" = "\x7b\"a\":1\x7d tail\x7d" := by decide
example : extractJSON "no json here" = "" := by decide
example : extractJSON "\x7bnever closed" = "" := by decide
example : extractJSON "```json\n\x7b\"a\":1\x7d\n```" = "\x7b\"a\":1\x7d" := by decide

/-! ## Analysis orchestration (ai_service.go lines 118-175, user_service.go lines 463-509) -/

/-- The distinct failure exits of the two `AnalyzeFoodImage` revisions. -/
inductive PipelineError where
  | openAIKeyMissing
  | geminiKeyMissing
  | geminiClientUnavailable
  | estimateWeightFailed (e : ProviderError)
  | analysisFailed (e : ProviderError)
deriving DecidableEq

/-- The provider-availability switching at the top of the current
`AnalyzeFoodImage` (ai_service.go lines 122-138): an unavailable requested
provider is silently substituted by the other when possible, otherwise the
call fails. -/
def chooseProvider (hasGeminiKey hasOpenAIKey useOpenAI : Bool) : Except PipelineError Bool :=
  let step1 : Except PipelineError Bool :=
    if useOpenAI && !hasOpenAIKey then
      if hasGeminiKey then .ok false else .error .openAIKeyMissing
    else .ok useOpenAI
  match step1 with
  | .error e => .error e
  | .ok u =>
    if !u && !hasGeminiKey then
      if hasOpenAIKey then .ok true else .error .geminiKeyMissing
    else .ok u

/-- `AIService.AnalyzeFoodImage` (current revision, ai_service.go lines
118-175).  The external sub-calls are passed as outcome parameters:
`estimateWeight` is the result of `s.estimateWeight`, and the two `analyze*`
functions map the resolved weight to the provider call's result.  When
`weight ≤ 0` the weight-estimation sub-call runs first, and its failure
aborts the whole call with `failed to estimate weight: ...`
(`.estimateWeightFailed`). -/
def AnalyzeFoodImage (hasGeminiKey hasOpenAIKey : Bool) (weight : ℚ) (useOpenAI : Bool)
    (estimateWeight : Except ProviderError ℚ)
    (analyzeWithOpenAI analyzeWithGemini : ℚ → Except ProviderError FoodAnalysisResult) :
    Except PipelineError FoodAnalysisResult :=
  match chooseProvider hasGeminiKey hasOpenAIKey useOpenAI with
  | .error e => .error e
  | .ok u =>
    let weightStep : Except PipelineError ℚ :=
      if weight ≤ 0 then
        match estimateWeight with
        | .error err => .error (.estimateWeightFailed err)
        | .ok w => .ok w
      else .ok weight
    match weightStep with
    | .error e => .error e
    | .ok w =>
      match (if u then analyzeWithOpenAI else analyzeWithGemini) w with
      | .error err => .error (.analysisFailed err)
      | .ok result => .ok (if w > 0 then { result with Weight := w } else result)

/-- `AIService.AnalyzeFoodImage` (Gemini-only revision, user_service.go lines
463-509).  When `weight ≤ 0` the weight-estimation sub-call runs first; on
its failure the code logs and continues the analysis with the original
weight (`продолжаем анализ без веса`) instead of returning an error. -/
def AnalyzeFoodImageUS (hasGeminiClient : Bool) (weight : ℚ)
    (estimateWeight : Except ProviderError ℚ)
    (analyzeWithGemini : ℚ → Except ProviderError FoodAnalysisResult) :
    Except PipelineError FoodAnalysisResult :=
  if !hasGeminiClient then .error .geminiClientUnavailable
  else
    let w :=
      if weight ≤ 0 then
        match estimateWeight with
        | .error _ => weight
        | .ok ew => ew
      else weight
    match analyzeWithGemini w with
    | .error err => .error (.analysisFailed err)
    | .ok result => .ok (if w > 0 then { result with Weight := w } else result)

/-! ## Helper lemmas -/

/-- The two copies of the time helper are the same function. -/
theorem timeToMinutes_eq_TimeToMinutes (s : String) : timeToMinutes s = TimeToMinutes s := rfl

/-- `timeToMinutes` never exceeds `23*60+59`. -/
theorem timeToMinutes_le_1439 (s : String) : timeToMinutes s ≤ 1439 := by
  unfold timeToMinutes
  cases hp : parseHHMM s with
  | none => simp
  | some p =>
    obtain ⟨hr, mn⟩ := p
    have := parseHHMM_range hp
    simp only [Option.getD_some]
    omega

/-- When no stored period contains the current minute the lookup loop leaves
`insulinRatio` at `0`. -/
theorem findInsulinRatio_eq_zero {ratios : List InsulinRatio} {m : Nat}
    (h : ∀ r ∈ ratios, coversMinute r m = false) : findInsulinRatio ratios m = 0 := by
  induction ratios with
  | nil => rfl
  | cons r rest ih =>
    have hr := h r (by simp)
    simp only [findInsulinRatio, hr, Bool.false_eq_true, if_false]
    exact ih fun x hx => h x (by simp [hx])

/-! ## C10: totality and range of the time-string conversion -/

/-- C10: the time-string-to-minutes conversion is total and never fails: for
every input string the result is in `[0,1439]`; for every string that
`time.Parse("15:04", ·)` rejects (including `"24:00"`) it silently returns
`0`, so both the service-local copy and the utils copy treat such strings as
midnight in the ratio-lookup (`coversMinute`) and coverage
(`normalizedDuration`) computations that consume them. -/
theorem timeToMinutes_total_never_fails (s : String) :
    TimeToMinutes s ≤ 1439 ∧
    timeToMinutes s = TimeToMinutes s ∧
    (parseHHMM s = none → TimeToMinutes s = 0) ∧
    TimeToMinutes "24:00" = 0 ∧
    (parseHHMM s = none → ∀ e r m, coversMinute ⟨s, e, r⟩ m = coversMinute ⟨"00:00", e, r⟩ m) ∧
    (parseHHMM s = none → ∀ e r, normalizedDuration ⟨s, e, r⟩ = normalizedDuration ⟨"00:00", e, r⟩) :=
  by
  refine ⟨timeToMinutes_le_1439 s, rfl, ?_, rfl, ?_, ?_⟩
  · intro h
    simp [TimeToMinutes, h]
  · intro h e r m
    have h0 : TimeToMinutes s = 0 := by simp [TimeToMinutes, h]
    simp [coversMinute, h0, show TimeToMinutes "00:00" = 0 from rfl]
  · intro h e r
    have h0 : timeToMinutes s = 0 := by simp [timeToMinutes, h]
    simp [normalizedDuration, h0, show timeToMinutes "00:00" = 0 from rfl]

/-- Witness for C10 at the unparsable input `"99:99"`. -/
theorem timeToMinutes_total_never_fails_witness :
    TimeToMinutes "99:99" = 0 ∧ TimeToMinutes "99:99" ≤ 1439 :=
  ⟨(timeToMinutes_total_never_fails "99:99").2.2.1 rfl,
   (timeToMinutes_total_never_fails "99:99").1⟩

/-! ## C4: bread units and dose formula -/

/-- C4: for every AI result with carbs `c ≥ 0` and every positive active
ratio, the record built by `AnalyzeFood` stores bread units equal to
`c / 12.0` and an insulin dose equal to `(c / 12.0) * ratio`, the active
ratio being the one `findInsulinRatio` looks up at the query minute. -/
theorem analyzeFood_dose_formula (result : FoodAnalysisResult) (weight : ℚ)
    (ratios : List InsulinRatio) (currentMinutes : Nat)
    (hc : 0 ≤ result.Carbs) (hr : 0 < findInsulinRatio ratios currentMinutes) :
    (AnalyzeFood result weight ratios currentMinutes).BreadUnits = result.Carbs / 12 ∧
    (AnalyzeFood result weight ratios currentMinutes).InsulinUnits =
      (result.Carbs / 12) * findInsulinRatio ratios currentMinutes :=
  ⟨rfl, rfl⟩

/-- Witness for C4: 60 g of carbs at ratio 2 gives 5 bread units and dose
`(60/12)*2`. -/
theorem analyzeFood_dose_formula_witness :
    (AnalyzeFood ⟨[], 60, "high", "t", 0⟩ 0 [⟨"08:00", "12:00", 2⟩] 600).BreadUnits = 60 / 12 ∧
    (AnalyzeFood ⟨[], 60, "high", "t", 0⟩ 0 [⟨"08:00", "12:00", 2⟩] 600).InsulinUnits =
      (60 / 12) * findInsulinRatio [⟨"08:00", "12:00", 2⟩] 600 :=
  analyzeFood_dose_formula ⟨[], 60, "high", "t", 0⟩ 0 [⟨"08:00", "12:00", 2⟩] 600
    (by norm_num)
    (by rw [show findInsulinRatio [⟨"08:00", "12:00", 2⟩] 600 = 2 from rfl]; norm_num)

/-! ## C8: unconfigured ratio produces a zero dose and the flag, not an error -/

/-- C8: when no configured period covers the query minute, `AnalyzeFood`
still produces a record (the computation has no failure path there): the
stored insulin ratio and insulin dose are both `0`, and `handlePhoto` shows
the ratio-not-configured message for it rather than a dose. -/
theorem analyzeFood_ratio_unconfigured (result : FoodAnalysisResult) (weight : ℚ)
    (ratios : List InsulinRatio) (currentMinutes : Nat)
    (h : ∀ r ∈ ratios, coversMinute r currentMinutes = false) :
    (AnalyzeFood result weight ratios currentMinutes).InsulinRatio = 0 ∧
    (AnalyzeFood result weight ratios currentMinutes).InsulinUnits = 0 ∧
    ratioNotConfiguredFlag (AnalyzeFood result weight ratios currentMinutes) = true := by
  have h0 : findInsulinRatio ratios currentMinutes = 0 := findInsulinRatio_eq_zero h
  refine ⟨h0, ?_, ?_⟩
  · show result.Carbs / 12 * findInsulinRatio ratios currentMinutes = 0
    rw [h0, mul_zero]
  · show (! decide (findInsulinRatio ratios currentMinutes > 0)) = true
    rw [h0]
    norm_num

/-- Witness for C8: a single morning period and an afternoon query minute. -/
theorem analyzeFood_ratio_unconfigured_witness :
    (AnalyzeFood ⟨[], 60, "high", "t", 0⟩ 0 [⟨"08:00", "12:00", 2⟩] 780).InsulinRatio = 0 ∧
    (AnalyzeFood ⟨[], 60, "high", "t", 0⟩ 0 [⟨"08:00", "12:00", 2⟩] 780).InsulinUnits = 0 ∧
    ratioNotConfiguredFlag (AnalyzeFood ⟨[], 60, "high", "t", 0⟩ 0 [⟨"08:00", "12:00", 2⟩] 780) =
      true :=
  analyzeFood_ratio_unconfigured ⟨[], 60, "high", "t", 0⟩ 0 [⟨"08:00", "12:00", 2⟩] 780
    (by decide)

/-! ## C9: confidence string/score/bucket round trip -/

/-- C9: converting a provider confidence string to the stored score
(`high → 0.9`, `medium → 0.6`, `low → 0.3`, anything else → `0.5`, after
lower-casing as the code does) and then bucketing the score with the photo
handler's thresholds (`≥ 0.8` high, `≥ 0.6` medium, else low) yields the
bucket named by the original string for the three named levels, and the low
bucket for every other string. -/
theorem confidence_bucket_roundtrip (s : String) :
    (toLowerGo s = "high" → confidenceText (confidenceFromString s) = "высокая") ∧
    (toLowerGo s = "medium" → confidenceText (confidenceFromString s) = "средняя") ∧
    (toLowerGo s = "low" → confidenceText (confidenceFromString s) = "низкая") ∧
    (toLowerGo s ≠ "high" → toLowerGo s ≠ "medium" → toLowerGo s ≠ "low" →
      confidenceText (confidenceFromString s) = "низкая") := by
  refine ⟨?_, ?_, ?_, ?_⟩
  · intro h
    have : confidenceFromString s = 9/10 := by simp [confidenceFromString, h]
    rw [this]
    norm_num [confidenceText]
  · intro h
    have : confidenceFromString s = 6/10 := by simp [confidenceFromString, h]
    rw [this]
    norm_num [confidenceText]
  · intro h
    have : confidenceFromString s = 3/10 := by simp [confidenceFromString, h]
    rw [this]
    norm_num [confidenceText]
  · intro h1 h2 h3
    have : confidenceFromString s = 5/10 := by simp [confidenceFromString, h1, h2, h3]
    rw [this]
    norm_num [confidenceText]

/-- Witness for C9 at `"Medium"` (exercising the lower-casing) and at an
unknown label. -/
theorem confidence_bucket_roundtrip_witness :
    confidenceText (confidenceFromString "Medium") = "средняя" ∧
    confidenceText (confidenceFromString "unsure") = "низкая" :=
  ⟨(confidence_bucket_roundtrip "Medium").2.1 rfl,
   (confidence_bucket_roundtrip "unsure").2.2.2 (by decide) (by decide) (by decide)⟩

/-! ## C3: coverage invariant of Add and Update -/

/-- Appending one period adds its normalized duration to the total. -/
theorem totalCovered_append (xs : List InsulinRatio) (p : InsulinRatio) :
    totalCoveredMinutes (xs ++ [p]) = totalCoveredMinutes xs + normalizedDuration p := by
  simp [totalCoveredMinutes]

/-- A successful `AddRatio` appends exactly the new row and its guard
enforces the coverage bound on the resulting row set. -/
theorem AddRatio_ok {existing : List InsulinRatio} {st et : String} {r : ℚ}
    {res : List InsulinRatio} (h : AddRatio existing st et r = .ok res) :
    res = existing ++ [⟨st, et, r⟩] ∧ totalCoveredMinutes res ≤ 24 * 60 := by
  simp only [AddRatio] at h
  split at h
  · exact Except.noConfusion h
  split at h
  · exact Except.noConfusion h
  split at h
  · exact Except.noConfusion h
  split at h
  · rename_i hwrap
    split at h
    · exact Except.noConfusion h
    · rename_i hguard
      injection h with h'
      subst h'
      refine ⟨rfl, ?_⟩
      rw [totalCovered_append]
      simp only [normalizedDuration, if_pos hwrap]
      omega
  · rename_i hwrap
    split at h
    · exact Except.noConfusion h
    · rename_i hguard
      injection h with h'
      subst h'
      refine ⟨rfl, ?_⟩
      rw [totalCovered_append]
      simp only [normalizedDuration, if_neg hwrap]
      omega

/-- A successful `UpdateRatio` replaces the edited row (the result set is the
other rows plus the new one) and its guard enforces the coverage bound. -/
theorem UpdateRatio_ok {others : List InsulinRatio} {st et : String} {r : ℚ}
    {res : List InsulinRatio} (h : UpdateRatio others st et r = .ok res) :
    res = others ++ [⟨st, et, r⟩] ∧ totalCoveredMinutes res ≤ 24 * 60 := by
  simp only [UpdateRatio] at h
  split at h
  · exact Except.noConfusion h
  split at h
  · exact Except.noConfusion h
  split at h
  · rename_i hwrap
    split at h
    · exact Except.noConfusion h
    split at h
    · exact Except.noConfusion h
    · rename_i hguard
      injection h with h'
      subst h'
      refine ⟨rfl, ?_⟩
      rw [totalCovered_append]
      simp only [normalizedDuration, if_pos hwrap]
      omega
  · rename_i hwrap
    split at h
    · exact Except.noConfusion h
    split at h
    · exact Except.noConfusion h
    · rename_i hguard
      injection h with h'
      subst h'
      refine ⟨rfl, ?_⟩
      rw [totalCovered_append]
      simp only [normalizedDuration, if_neg hwrap]
      omega

/-- C3: every `AddRatio` and every `UpdateRatio` preserves the invariant that
the user's total covered duration, wraparound-normalized, is at most
`24*60 = 1440` minutes: a successful operation always results in a row set
within the bound, and an operation whose resulting row set would exceed the
bound returns an error (and by construction an erroring operation leaves the
stored rows unchanged, since the Go code returns before the DB write). -/
theorem ratio_coverage_invariant :
    (∀ existing st et r res, AddRatio existing st et r = .ok res →
      totalCoveredMinutes res ≤ 24 * 60) ∧
    (∀ others st et r res, UpdateRatio others st et r = .ok res →
      totalCoveredMinutes res ≤ 24 * 60) ∧
    (∀ existing st et r, totalCoveredMinutes (existing ++ [⟨st, et, r⟩]) > 24 * 60 →
      ∃ e, AddRatio existing st et r = .error e) ∧
    (∀ others st et r, totalCoveredMinutes (others ++ [⟨st, et, r⟩]) > 24 * 60 →
      ∃ e, UpdateRatio others st et r = .error e) := by
  refine ⟨?_, ?_, ?_, ?_⟩
  · intro existing st et r res h
    exact (AddRatio_ok h).2
  · intro others st et r res h
    exact (UpdateRatio_ok h).2
  · intro existing st et r hover
    cases hA : AddRatio existing st et r with
    | error e => exact ⟨e, rfl⟩
    | ok res =>
      obtain ⟨hres, hle⟩ := AddRatio_ok hA
      rw [← hres] at hover
      omega
  · intro others st et r hover
    cases hA : UpdateRatio others st et r with
    | error e => exact ⟨e, rfl⟩
    | ok res =>
      obtain ⟨hres, hle⟩ := UpdateRatio_ok hA
      rw [← hres] at hover
      omega

/-- Witness for C3: a successful add stays within the bound, and an add that
would push the normalized total to 2040 minutes errors. -/
theorem ratio_coverage_invariant_witness :
    totalCoveredMinutes [⟨"08:00", "12:00", 1⟩] ≤ 24 * 60 ∧
    (∃ e, AddRatio [⟨"12:00", "11:00", 1⟩] "12:30" "23:30" 1 = .error e) :=
  ⟨ratio_coverage_invariant.1 [] "08:00" "12:00" 1 [⟨"08:00", "12:00", 1⟩] rfl,
   ratio_coverage_invariant.2.2.1 [⟨"12:00", "11:00", 1⟩] "12:30" "23:30" 1 (by decide)⟩

/-! ## C1: the Add overlap check versus normalized-range intersection -/

/-- With valid times, `AddRatio` fails with the overlap error exactly when the
raw-minute test fires against some existing row. -/
theorem AddRatio_overlap_iff {existing : List InsulinRatio} {st et : String} {r : ℚ}
    (hs : (parseHHMM st).isSome = true) (he : (parseHHMM et).isSome = true) :
    AddRatio existing st et r = .error .overlap ↔
      ∃ A ∈ existing, overlapsRaw (timeToMinutes st) (timeToMinutes et)
        (timeToMinutes A.StartTime) (timeToMinutes A.EndTime) = true := by
  have h1 : (parseHHMM st).isNone = false := by
    cases hp : parseHHMM st <;> simp_all
  have h2 : (parseHHMM et).isNone = false := by
    cases hp : parseHHMM et <;> simp_all
  simp only [AddRatio, h1, h2, Bool.false_eq_true, if_false]
  constructor
  · intro h
    split at h
    · rename_i hany
      simpa using List.any_eq_true.mp hany
    · split at h <;> split at h <;> simp_all
  · intro hex
    have hany : (existing.any fun A =>
        overlapsRaw (timeToMinutes st) (timeToMinutes et)
          (timeToMinutes A.StartTime) (timeToMinutes A.EndTime)) = true := by
      rw [List.any_eq_true]
      simpa using hex
    simp [hany]

/-- For non-wrapping, non-empty periods inside the day, the raw-minute test
agrees with wraparound-normalized intersection. -/
theorem overlapsRaw_iff_specIntersect {s e es ee : Nat} (hse : s < e) (hesee : es < ee)
    (he : e ≤ 1440) (hee : ee ≤ 1440) :
    overlapsRaw s e es ee = true ↔ specNormalizedIntersect s e es ee = true := by
  have hns : ¬ (e < s) := by omega
  have hnes : ¬ (ee < es) := by omega
  unfold overlapsRaw specNormalizedIntersect
  constructor
  · intro h
    simp only [Bool.or_eq_true, Bool.and_eq_true, decide_eq_true_eq] at h
    rw [List.any_eq_true]
    rcases h with (⟨h1, h2⟩ | ⟨h1, h2⟩) | ⟨h1, h2⟩
    · refine ⟨s, by simp only [List.mem_range]; omega, ?_⟩
      simp only [specCoversMinute, if_neg hns, if_neg hnes, Bool.and_eq_true,
        decide_eq_true_eq]
      omega
    · refine ⟨e - 1, by simp only [List.mem_range]; omega, ?_⟩
      simp only [specCoversMinute, if_neg hns, if_neg hnes, Bool.and_eq_true,
        decide_eq_true_eq]
      omega
    · refine ⟨es, by simp only [List.mem_range]; omega, ?_⟩
      simp only [specCoversMinute, if_neg hns, if_neg hnes, Bool.and_eq_true,
        decide_eq_true_eq]
      omega
  · intro h
    rw [List.any_eq_true] at h
    obtain ⟨m, hm, hcov⟩ := h
    simp only [specCoversMinute, if_neg hns, if_neg hnes, Bool.and_eq_true,
      decide_eq_true_eq] at hcov
    simp only [Bool.or_eq_true, Bool.and_eq_true, decide_eq_true_eq]
    omega

/-- C1 counterexample: the claimed equivalence fails in both directions.  The
existing wrapping period `22:00-06:00` intersects the new `23:00-23:30`
(normalized minutes 1320-1800 versus 1380-1410) yet `AddRatio` accepts it,
and the existing wrapping period `20:00-08:00` does not intersect the new
`12:00-20:00` yet `AddRatio` rejects it with the overlap error. -/
theorem addRatio_overlap_counterexample :
    timeToMinutes "23:00" = 1380 ∧ timeToMinutes "23:30" = 1410 ∧
    timeToMinutes "22:00" = 1320 ∧ timeToMinutes "06:00" = 360 ∧
    specNormalizedIntersect 1380 1410 1320 360 = true ∧
    AddRatio [⟨"22:00", "06:00", 1⟩] "23:00" "23:30" 2 =
      .ok [⟨"22:00", "06:00", 1⟩, ⟨"23:00", "23:30", 2⟩] ∧
    specNormalizedIntersect 720 1200 1200 480 = false ∧
    AddRatio [⟨"20:00", "08:00", 1⟩] "12:00" "20:00" 1 = .error .overlap :=
  ⟨rfl, rfl, rfl, rfl, by decide, rfl, by decide, rfl⟩

/-- C1 amended: for valid times, `Add` fails with the overlap error iff the
code's raw-minute test (start inside the existing raw range, or end inside
it, or raw containment) fires against some existing row; this test coincides
with wraparound-normalized intersection when both periods are non-wrapping
and non-empty, but not in general (see the counterexample). -/
theorem addRatio_overlap_error_characterization :
    (∀ (existing : List InsulinRatio) (st et : String) (r : ℚ),
      (parseHHMM st).isSome = true → (parseHHMM et).isSome = true →
      (AddRatio existing st et r = .error .overlap ↔
        ∃ A ∈ existing, overlapsRaw (timeToMinutes st) (timeToMinutes et)
          (timeToMinutes A.StartTime) (timeToMinutes A.EndTime) = true)) ∧
    (∀ s e es ee : Nat, s < e → es < ee → e ≤ 1440 → ee ≤ 1440 →
      (overlapsRaw s e es ee = true ↔ specNormalizedIntersect s e es ee = true)) :=
  ⟨fun _ _ _ _ hs he => AddRatio_overlap_iff hs he,
   fun _ _ _ _ hse hesee he hee => overlapsRaw_iff_specIntersect hse hesee he hee⟩

/-- Witness for the amended C1: a concrete overlapping add is rejected with
the overlap error, and a concrete non-wrapping raw test agrees with the
normalized intersection. -/
theorem addRatio_overlap_error_characterization_witness :
    AddRatio [⟨"08:00", "12:00", 1⟩] "10:00" "11:00" 2 = .error .overlap ∧
    specNormalizedIntersect 600 660 480 720 = true :=
  ⟨(addRatio_overlap_error_characterization.1 [⟨"08:00", "12:00", 1⟩] "10:00" "11:00" 2
      rfl rfl).mpr ⟨⟨"08:00", "12:00", 1⟩, by simp, by decide⟩,
   (addRatio_overlap_error_characterization.2 600 660 480 720 (by norm_num) (by norm_num)
      (by norm_num) (by norm_num)).mp (by decide)⟩

/-! ## C2: single-period query behaviour -/

/-- C2 counterexample: after adding the single valid period `08:00-12:00`,
the lookup at minute 720 (= `12:00`, outside the half-open range
`[480,720)`) still returns the period's ratio, because the code's
containment test is inclusive of the end minute. -/
theorem query_halfopen_counterexample :
    AddRatio [] "08:00" "12:00" (3/2) = .ok [⟨"08:00", "12:00", 3/2⟩] ∧
    TimeToMinutes "08:00" = 480 ∧ TimeToMinutes "12:00" = 720 ∧
    ¬ (480 ≤ 720 ∧ 720 < 720) ∧
    findInsulinRatio [⟨"08:00", "12:00", 3/2⟩] 720 = 3/2 ∧ (3/2 : ℚ) ≠ 0 :=
  ⟨rfl, rfl, rfl, by omega, rfl, by norm_num⟩

/-- C2 amended: adding a single valid period `(s,e,r)` to a user with no
existing periods always succeeds, and the lookup then returns `r` exactly on
the wraparound-aware closed range — `s ≤ m ≤ e` for a non-wrapping period,
`m ≥ s ∨ m ≤ e` for a wrapping one — and `0` outside it. -/
theorem addRatio_then_query (st et : String) (r : ℚ) (m : Nat)
    (hs : (parseHHMM st).isSome = true) (he : (parseHHMM et).isSome = true) :
    AddRatio [] st et r = .ok [⟨st, et, r⟩] ∧
    findInsulinRatio [⟨st, et, r⟩] m =
      (if TimeToMinutes et < TimeToMinutes st then
        (if TimeToMinutes st ≤ m ∨ m ≤ TimeToMinutes et then r else 0)
       else (if TimeToMinutes st ≤ m ∧ m ≤ TimeToMinutes et then r else 0)) := by
  have h1 : (parseHHMM st).isNone = false := by
    cases hp : parseHHMM st <;> simp_all
  have h2 : (parseHHMM et).isNone = false := by
    cases hp : parseHHMM et <;> simp_all
  have hb1 : timeToMinutes st ≤ 1439 := timeToMinutes_le_1439 st
  have hb2 : timeToMinutes et ≤ 1439 := timeToMinutes_le_1439 et
  constructor
  · simp only [AddRatio, h1, h2, Bool.false_eq_true, if_false, List.any_nil,
      totalCoveredMinutes, List.map_nil, List.sum_nil, Nat.zero_add]
    split
    · rename_i hwrap
      rw [if_neg (by omega), List.nil_append]
    · rename_i hwrap
      rw [if_neg (by omega), List.nil_append]
  · have hidty : TimeToMinutes st = timeToMinutes st := rfl
    have hidty2 : TimeToMinutes et = timeToMinutes et := rfl
    by_cases hw : TimeToMinutes et < TimeToMinutes st
    · rw [if_pos hw]
      by_cases hc : TimeToMinutes st ≤ m ∨ m ≤ TimeToMinutes et
      · rw [if_pos hc]
        simp only [findInsulinRatio, coversMinute, if_pos hw]
        have : (decide (m ≥ TimeToMinutes st) || decide (m ≤ TimeToMinutes et)) = true := by
          simp only [Bool.or_eq_true, decide_eq_true_eq]
          omega
        rw [this, if_pos rfl]
      · rw [if_neg hc]
        simp only [findInsulinRatio, coversMinute, if_pos hw]
        have : (decide (m ≥ TimeToMinutes st) || decide (m ≤ TimeToMinutes et)) = false := by
          simp only [Bool.or_eq_false_iff, decide_eq_false_iff_not]
          omega
        rw [this]
        simp [findInsulinRatio]
    · rw [if_neg hw]
      by_cases hc : TimeToMinutes st ≤ m ∧ m ≤ TimeToMinutes et
      · rw [if_pos hc]
        simp only [findInsulinRatio, coversMinute, if_neg hw]
        have : (decide (m ≥ TimeToMinutes st) && decide (m ≤ TimeToMinutes et)) = true := by
          simp only [Bool.and_eq_true, decide_eq_true_eq]
          omega
        rw [this, if_pos rfl]
      · rw [if_neg hc]
        simp only [findInsulinRatio, coversMinute, if_neg hw]
        have : (decide (m ≥ TimeToMinutes st) && decide (m ≤ TimeToMinutes et)) = false := by
          rw [Bool.and_eq_false_iff]
          simp only [decide_eq_false_iff_not]
          omega
        rw [this]
        simp [findInsulinRatio]

/-- Witness for the amended C2: the wrapping period `20:00-08:00` with ratio
1, queried at 06:00 (minute 360). -/
theorem addRatio_then_query_witness :
    AddRatio [] "20:00" "08:00" 1 = .ok [⟨"20:00", "08:00", 1⟩] ∧
    findInsulinRatio [⟨"20:00", "08:00", 1⟩] 360 =
      (if TimeToMinutes "08:00" < TimeToMinutes "20:00" then
        (if TimeToMinutes "20:00" ≤ 360 ∨ 360 ≤ TimeToMinutes "08:00" then 1 else 0)
       else (if TimeToMinutes "20:00" ≤ 360 ∧ 360 ≤ TimeToMinutes "08:00" then 1 else 0)) :=
  addRatio_then_query "20:00" "08:00" 1 360 rfl rfl

/-! ## C5: retry policy -/

/-- ai_service.go's wrapper invokes the operation at most `maxRetries + 1`
times. -/
theorem retryLoop_count_le (fn : Nat → Option ProviderError) :
    ∀ remaining attempt, (retryLoop fn attempt remaining).2 ≤ remaining + 1 := by
  intro remaining
  induction remaining with
  | zero =>
    intro attempt
    unfold retryLoop
    cases fn attempt with
    | none => simp
    | some e =>
      by_cases h : isRateLimitError e = true
      · simp [h]
      · simp [h]
  | succ r ih =>
    intro attempt
    unfold retryLoop
    cases fn attempt with
    | none => simp
    | some e =>
      by_cases h : isRateLimitError e = true
      · simp only [h, if_true]
        have := ih (attempt + 1)
        omega
      · simp [h]

/-- In ai_service.go's wrapper, every attempt that is followed by another
attempt failed with a 429 `googleapi` error: nothing else is ever retried. -/
theorem retryLoop_retried_only (fn : Nat → Option ProviderError) :
    ∀ remaining attempt k, k + 1 < (retryLoop fn attempt remaining).2 →
      ∃ e, fn (attempt + k) = some e ∧ isRateLimitError e = true := by
  intro remaining
  induction remaining with
  | zero =>
    intro attempt k hk
    exact absurd hk (by have := retryLoop_count_le fn 0 attempt; omega)
  | succ r ih =>
    intro attempt k hk
    unfold retryLoop at hk
    cases hfn : fn attempt with
    | none => rw [hfn] at hk; simp at hk
    | some e =>
      rw [hfn] at hk
      by_cases hrl : isRateLimitError e = true
      · simp only [hrl, if_true] at hk
        cases k with
        | zero => exact ⟨e, by simpa using hfn, hrl⟩
        | succ k' =>
          have hk' : k' + 1 < (retryLoop fn (attempt + 1) r).2 := by omega
          obtain ⟨e', he', hrl'⟩ := ih (attempt + 1) k' hk'
          refine ⟨e', ?_, hrl'⟩
          rw [show attempt + (k' + 1) = attempt + 1 + k' by omega]
          exact he'
      · simp [hrl] at hk

/-- user_service.go's wrapper invokes the operation at most `maxRetries`
times. -/
theorem retryLoopUS_count_le (fn : Nat → Option ProviderError) :
    ∀ remaining i lastErr, (retryLoopUS fn i remaining lastErr).2 ≤ remaining := by
  intro remaining
  induction remaining with
  | zero => intro i lastErr; unfold retryLoopUS; simp
  | succ r ih =>
    intro i lastErr
    unfold retryLoopUS
    cases fn i with
    | none => simp
    | some e =>
      by_cases h : isRetryableUS e = true
      · simp only [h, if_true]
        have := ih (i + 1) (some e)
        omega
      · simp [h]

/-- In user_service.go's wrapper, every attempt that is followed by another
attempt failed with an error of a retried class (429/5xx `googleapi` or any
non-`googleapi` error). -/
theorem retryLoopUS_retried_only (fn : Nat → Option ProviderError) :
    ∀ remaining i lastErr k, k + 1 < (retryLoopUS fn i remaining lastErr).2 →
      ∃ e, fn (i + k) = some e ∧ isRetryableUS e = true := by
  intro remaining
  induction remaining with
  | zero =>
    intro i lastErr k hk
    exact absurd hk (by have := retryLoopUS_count_le fn 0 i lastErr; omega)
  | succ r ih =>
    intro i lastErr k hk
    unfold retryLoopUS at hk
    cases hfn : fn i with
    | none => rw [hfn] at hk; simp at hk
    | some e =>
      rw [hfn] at hk
      by_cases hrl : isRetryableUS e = true
      · simp only [hrl, if_true] at hk
        cases k with
        | zero => exact ⟨e, by simpa using hfn, hrl⟩
        | succ k' =>
          have hk' : k' + 1 < (retryLoopUS fn (i + 1) r (some e)).2 := by omega
          obtain ⟨e', he', hrl'⟩ := ih (i + 1) (some e) k' hk'
          refine ⟨e', ?_, hrl'⟩
          rw [show i + (k' + 1) = i + 1 + k' by omega]
          exact he'
      · simp [hrl] at hk

/-- C5 counterexample: a `googleapi` 500 error on the first attempt is *not*
retried by ai_service.go's wrapper (it returns immediately after one
invocation, though the claim calls 5xx transient and retried), while a
non-`googleapi` error *is* retried by user_service.go's wrapper (a second
invocation happens, though the claim says other error classes return
immediately with no further invocations). -/
theorem retry_policy_counterexample :
    retryWithBackoff 3 (fun i => if i = 0 then some (.googleAPI 500) else none) =
      (.failed (.googleAPI 500), 1) ∧
    retryWithBackoffUS 3
      (fun i => if i = 0 then some (.generic "no candidates in Gemini response") else none) =
      (.ok, 2) := by
  constructor <;> decide

/-- C5 amended: in ai_service.go's `retryWithBackoff` only 429 `googleapi`
errors are ever retried — any other first-attempt error (including 5xx) is
returned immediately after one invocation — and the attempt count is bounded
by `maxRetries + 1`; in user_service.go's revision the retried classes are
429/5xx `googleapi` errors *and* all non-`googleapi` errors — only another
`googleapi` code returns immediately — with the attempt count bounded by
`maxRetries`. -/
theorem retry_policy_characterization :
    (∀ (mr : Nat) (fn : Nat → Option ProviderError) (e : ProviderError),
      fn 0 = some e → isRateLimitError e = false → retryWithBackoff mr fn = (.failed e, 1)) ∧
    (∀ (mr : Nat) (fn : Nat → Option ProviderError), (retryWithBackoff mr fn).2 ≤ mr + 1) ∧
    (∀ (mr : Nat) (fn : Nat → Option ProviderError) (k : Nat),
      k + 1 < (retryWithBackoff mr fn).2 →
      ∃ e, fn k = some e ∧ isRateLimitError e = true) ∧
    (∀ (mr : Nat) (fn : Nat → Option ProviderError) (e : ProviderError), 0 < mr →
      fn 0 = some e → isRetryableUS e = false → retryWithBackoffUS mr fn = (.failed e, 1)) ∧
    (∀ (mr : Nat) (fn : Nat → Option ProviderError), (retryWithBackoffUS mr fn).2 ≤ mr) ∧
    (∀ (mr : Nat) (fn : Nat → Option ProviderError) (k : Nat),
      k + 1 < (retryWithBackoffUS mr fn).2 →
      ∃ e, fn k = some e ∧ isRetryableUS e = true) := by
  refine ⟨?_, ?_, ?_, ?_, ?_, ?_⟩
  · intro mr fn e hfn hrl
    unfold retryWithBackoff retryLoop
    rw [hfn]
    simp [hrl]
  · intro mr fn
    exact retryLoop_count_le fn mr 0
  · intro mr fn k hk
    simpa using retryLoop_retried_only fn mr 0 k hk
  · intro mr fn e hmr hfn hrl
    obtain ⟨r, rfl⟩ : ∃ r, mr = r + 1 := ⟨mr - 1, by omega⟩
    unfold retryWithBackoffUS retryLoopUS
    rw [hfn]
    simp [hrl]
  · intro mr fn
    exact retryLoopUS_count_le fn mr 0 none
  · intro mr fn k hk
    simpa using retryLoopUS_retried_only fn mr 0 none k hk

/-- Witness for the amended C5: a 404 `googleapi` error returns immediately
from both wrappers. -/
theorem retry_policy_characterization_witness :
    retryWithBackoff 3 (fun _ => some (.googleAPI 404)) = (.failed (.googleAPI 404), 1) ∧
    retryWithBackoffUS 3 (fun _ => some (.googleAPI 404)) = (.failed (.googleAPI 404), 1) :=
  ⟨retry_policy_characterization.1 3 (fun _ => some (.googleAPI 404)) (.googleAPI 404) rfl rfl,
   retry_policy_characterization.2.2.2.1 3 (fun _ => some (.googleAPI 404)) (.googleAPI 404)
     (by norm_num) rfl rfl⟩

/-! ## C7: weight-estimation failure policy -/

/-- C7 counterexample: with no declared weight and a failing weight-estimation
sub-call, the current `AnalyzeFoodImage` (ai_service.go) aborts the whole
pipeline with `failed to estimate weight`, even though the image analysis
itself would succeed; the user_service.go revision continues without a weight
and returns the analysis result. -/
theorem weight_estimation_abort_counterexample :
    AnalyzeFoodImage true false 0 false (.error (.generic "parse"))
      (fun _ => .ok ⟨[], 30, "high", "t", 0⟩) (fun _ => .ok ⟨[], 30, "high", "t", 0⟩) =
      .error (.estimateWeightFailed (.generic "parse")) ∧
    AnalyzeFoodImageUS true 0 (.error (.generic "parse"))
      (fun _ => .ok ⟨[], 30, "high", "t", 0⟩) = .ok ⟨[], 30, "high", "t", 0⟩ := by
  constructor <;> rfl

/-- C7 amended: with `declaredWeight ≤ 0` both revisions invoke the
weight-estimation sub-call before the image analysis, but on its failure the
current ai_service.go revision aborts the pipeline with an
estimate-weight error, while the user_service.go revision logs and continues
the analysis without a weight and returns its result. -/
theorem weight_estimation_failure_policy :
    (∀ (hG hO uO : Bool) (w : ℚ) (e : ProviderError)
      (aO aG : ℚ → Except ProviderError FoodAnalysisResult) (u : Bool),
      chooseProvider hG hO uO = .ok u → w ≤ 0 →
      AnalyzeFoodImage hG hO w uO (.error e) aO aG = .error (.estimateWeightFailed e)) ∧
    (∀ (w : ℚ) (e : ProviderError) (aG : ℚ → Except ProviderError FoodAnalysisResult)
      (res : FoodAnalysisResult),
      w ≤ 0 → aG w = .ok res →
      AnalyzeFoodImageUS true w (.error e) aG = .ok res) := by
  constructor
  · intro hG hO uO w e aO aG u hchoose hw
    unfold AnalyzeFoodImage
    rw [hchoose, if_pos hw]
  · intro w e aG res hw hres
    unfold AnalyzeFoodImageUS
    rw [if_pos hw]
    simp only [Bool.not_true, Bool.false_eq_true, if_false, hres]
    rw [if_neg (not_lt.mpr hw)]

/-- Witness for the amended C7 at declared weight 0 with a failing estimate
sub-call. -/
theorem weight_estimation_failure_policy_witness :
    AnalyzeFoodImage true false 0 false (.error (.generic "x"))
      (fun _ => .ok ⟨[], 30, "high", "t", 0⟩) (fun _ => .ok ⟨[], 30, "high", "t", 0⟩) =
      .error (.estimateWeightFailed (.generic "x")) ∧
    AnalyzeFoodImageUS true 0 (.error (.generic "x"))
      (fun _ => .ok ⟨[], 30, "high", "t", 0⟩) = .ok ⟨[], 30, "high", "t", 0⟩ :=
  ⟨weight_estimation_failure_policy.1 true false false 0 (.generic "x")
      (fun _ => .ok ⟨[], 30, "high", "t", 0⟩) (fun _ => .ok ⟨[], 30, "high", "t", 0⟩) false
      rfl (by norm_num),
   weight_estimation_failure_policy.2 0 (.generic "x")
      (fun _ => .ok ⟨[], 30, "high", "t", 0⟩) ⟨[], 30, "high", "t", 0⟩ (by norm_num) rfl⟩

/-! ## C6: JSON extraction -/

/-- Counting braces across a cons cell. -/
theorem count_braces_cons (c : Char) (l : List Char) :
    (c :: l).count '\x7b' = l.count '\x7b' + (if c = '\x7b' then 1 else 0) ∧
    (c :: l).count '\x7d' = l.count '\x7d' + (if c = '\x7d' then 1 else 0) := by
  constructor <;>
  · simp only [List.count_cons]
    split <;> split <;> simp_all

/-- Invariant of the brace-depth scan: when the accumulated (reversed) prefix
starts with `{` and the running count matches the accumulated braces, a
successful scan returns a substring that starts with `{`, ends with `}` and
has equally many opening and closing braces. -/
theorem extractLoop_spec (cs : List Char) :
    ∀ (d : Int) (acc out : List Char),
      d = (acc.count '\x7b' : Int) - (acc.count '\x7d' : Int) →
      acc ≠ [] → acc.getLast? = some '\x7b' →
      extractLoop cs d acc = some out →
      out.head? = some '\x7b' ∧ out.getLast? = some '\x7d' ∧
        out.count '\x7b' = out.count '\x7d' := by
  induction cs with
  | nil =>
    intro d acc out hd hne hlast h
    exact Option.noConfusion h
  | cons c rest ih =>
    intro d acc out hd hne hlast h
    obtain ⟨a, acc', rfl⟩ := List.exists_cons_of_ne_nil hne
    have hcnt := count_braces_cons c (a :: acc')
    unfold extractLoop at h
    by_cases hob : c = '\x7b'
    · rw [if_pos hob] at h
      refine ih (d + 1) (c :: a :: acc') out ?_ (by simp) ?_ h
      · rw [hcnt.1, hcnt.2, if_pos hob, if_neg (by rw [hob]; decide)]
        push_cast
        omega
      · rw [List.getLast?_cons_cons]
        exact hlast
    · rw [if_neg hob] at h
      by_cases hcb : c = '\x7d'
      · rw [if_pos hcb] at h
        by_cases hz : d - 1 = 0
        · rw [if_pos hz] at h
          injection h with h'
          subst h'
          refine ⟨?_, ?_, ?_⟩
          · rw [List.head?_reverse, List.getLast?_cons_cons]
            exact hlast
          · rw [List.getLast?_reverse]
            simp [hcb]
          · rw [List.count_reverse, List.count_reverse, hcnt.1, hcnt.2,
              if_neg hob, if_pos hcb]
            omega
        · rw [if_neg hz] at h
          refine ih (d - 1) (c :: a :: acc') out ?_ (by simp) ?_ h
          · rw [hcnt.1, hcnt.2, if_neg hob, if_pos hcb]
            push_cast
            omega
          · rw [List.getLast?_cons_cons]
            exact hlast
      · rw [if_neg hcb] at h
        refine ih d (c :: a :: acc') out ?_ (by simp) ?_ h
        · rw [hcnt.1, hcnt.2, if_neg hob, if_neg hcb]
          push_cast
          omega
        · rw [List.getLast?_cons_cons]
          exact hlast

/-- `dropUntilOpen` returns a suffix starting with `{`. -/
theorem dropUntilOpen_head : ∀ {cs cs' : List Char},
    dropUntilOpen cs = some cs' → ∃ rest, cs' = '\x7b' :: rest := by
  intro cs
  induction cs with
  | nil => intro cs' h; exact Option.noConfusion h
  | cons c rest ih =>
    intro cs' h
    unfold dropUntilOpen at h
    by_cases hc : c = '\x7b'
    · rw [if_pos hc] at h
      injection h with h'
      exact ⟨rest, by rw [← h', hc]⟩
    · rw [if_neg hc] at h
      exact ih h

/-- Every non-empty output of the depth scan started on a suffix beginning
with `{` starts with `{`, ends with `}` and has balanced brace counts. -/
theorem extractFromOpen_structure (rest : List Char)
    (h : extractFromOpen ('\x7b' :: rest) ≠ "") :
    (extractFromOpen ('\x7b' :: rest)).data.head? = some '\x7b' ∧
    (extractFromOpen ('\x7b' :: rest)).data.getLast? = some '\x7d' ∧
    (extractFromOpen ('\x7b' :: rest)).data.count '\x7b' =
      (extractFromOpen ('\x7b' :: rest)).data.count '\x7d' := by
  unfold extractFromOpen at h ⊢
  cases hloop : extractLoop ('\x7b' :: rest) 0 [] with
  | none => rw [hloop] at h; exact absurd rfl h
  | some out =>
    have hstep : extractLoop rest 1 ['\x7b'] = some out := by
      have hone : extractLoop ('\x7b' :: rest) 0 [] = extractLoop rest (0 + 1) ['\x7b'] := rfl
      rw [hone] at hloop
      simpa using hloop
    have key := extractLoop_spec rest 1 ['\x7b'] out (by simp) (by simp) (by simp) hstep
    exact ⟨key.1, key.2.1, key.2.2⟩

/-- Every non-empty output of the boundary-finding scan starts with `{`, ends
with `}` and has balanced brace counts. -/
theorem extractFromCleaned_structure (cleaned : List Char)
    (h : extractFromCleaned cleaned ≠ "") :
    (extractFromCleaned cleaned).data.head? = some '\x7b' ∧
    (extractFromCleaned cleaned).data.getLast? = some '\x7d' ∧
    (extractFromCleaned cleaned).data.count '\x7b' =
      (extractFromCleaned cleaned).data.count '\x7d' := by
  unfold extractFromCleaned at h ⊢
  cases hdrop : dropUntilOpen cleaned with
  | none => rw [hdrop] at h; exact absurd rfl h
  | some cs =>
    rw [hdrop] at h
    obtain ⟨rest, rfl⟩ := dropUntilOpen_head hdrop
    exact extractFromOpen_structure rest h

/-- Every non-empty output of the current `extractJSON` starts with `{`, ends
with `}` and has balanced brace counts. -/
theorem extractJSON_nonempty_structure (s : String) (h : extractJSON s ≠ "") :
    (extractJSON s).data.head? = some '\x7b' ∧
    (extractJSON s).data.getLast? = some '\x7d' ∧
    (extractJSON s).data.count '\x7b' = (extractJSON s).data.count '\x7d' :=
  extractFromCleaned_structure _ h

/-- C6 counterexample: on an input with a stray `}` in trailing noise, the
user_service.go revision of `extractJSON` (first `{` to *last* `}`) keeps the
noise instead of stopping at the brace-depth-matching `}`, so the cited code
does not implement the claimed depth-tracking behaviour; the current
ai_service.go revision does. -/
theorem extractJSON_legacy_counterexample :
    extractJSONLegacy "x \x7b\"a\":1\x7d tail\x7d" = "\x7b\"a\":1\x7d tail\x7d" ∧
    extractJSONLegacy "x \x7b\"a\":1\x7d tail\x7d" ≠ "\x7b\"a\":1\x7d" ∧
    extractJSON "x \x7b\"a\":1\x7d tail\x7d" = "\x7b\"a\":1\x7d" :=
  ⟨by decide, by decide, by decide⟩

/-- C6 amended: the current `extractJSON` (ai_service.go, also the newest
user_service.go revision) strips code fences, locates the first `{` and
tracks brace depth to its matching `}` — so nested objects are kept intact,
trailing noise is dropped, every non-empty result is brace-balanced, and the
result is empty when no balanced object exists; on the named input it returns
exactly the nested object.  The older revision at user_service.go:349-362
instead takes the substring from the first `{` to the *last* `}`: it agrees
on the named input (whose last `}` closes the object) but keeps trailing
noise that contains `}`. -/
theorem extractJSON_behaviour :
    extractJSON "noise \x7b\"a\":1,\"nested\":\x7b\"b\":2\x7d\x7d trailing" =
      "\x7b\"a\":1,\"nested\":\x7b\"b\":2\x7d\x7d" ∧
    extractJSONLegacy "noise \x7b\"a\":1,\"nested\":\x7b\"b\":2\x7d\x7d trailing" =
      "\x7b\"a\":1,\"nested\":\x7b\"b\":2\x7d\x7d" ∧
    extractJSON "no json here" = "" ∧
    extractJSON "\x7bnever closed" = "" ∧
    extractJSONLegacy "no json here" = "" ∧
    (∀ s : String, extractJSON s ≠ "" →
      (extractJSON s).data.head? = some '\x7b' ∧
      (extractJSON s).data.getLast? = some '\x7d' ∧
      (extractJSON s).data.count '\x7b' = (extractJSON s).data.count '\x7d') :=
  ⟨by decide, by decide, by decide, by decide, by decide,
   fun s h => extractJSON_nonempty_structure s h⟩

/-- Witness for the amended C6: the structural guarantee applied to the named
input. -/
theorem extractJSON_behaviour_witness :
    (extractJSON "noise \x7b\"a\":1,\"nested\":\x7b\"b\":2\x7d\x7d trailing").data.head? =
      some '\x7b' ∧
    (extractJSON "noise \x7b\"a\":1,\"nested\":\x7b\"b\":2\x7d\x7d trailing").data.getLast? =
      some '\x7d' ∧
    (extractJSON "noise \x7b\"a\":1,\"nested\":\x7b\"b\":2\x7d\x7d trailing").data.count '\x7b' =
      (extractJSON "noise \x7b\"a\":1,\"nested\":\x7b\"b\":2\x7d\x7d trailing").data.count '\x7d' :=
  extractJSON_behaviour.2.2.2.2.2 "noise \x7b\"a\":1,\"nested\":\x7b\"b\":2\x7d\x7d trailing"
    (by decide)
